import Mathlib

/-
Shallow embedding of the procedural-terrain / persistence core of the
3D car racing game (src/main.py, class CarRacingGame).

Coordinates are modelled as rationals.  Python's Mersenne-Twister stream is
abstracted as a function `rng : ℕ → ℕ → ℚ` mapping (seed, draw index) to the
draw in [0, 1]; `random.seed(s)` is modelled by setting the state's
`rngSeed := s` and `rngIdx := 0`, and `random.uniform(a, b)` by
`a + (b - a) * rng seed idx` (exactly Python's formula), advancing the index.
Texture synthesis (generate_*_texture) draws nothing from the stream when the
seed argument is given, but re-seeds it; this is reflected wherever the source
calls those functions.  Engine rendering, colliders and input are out of
scope; entities are modelled by their positions and kinematic fields.
-/

/-- A 3D position, mirroring ursina's Vec3 (x lateral, y up, z longitudinal). -/
structure Vec3 where
  x : ℚ
  y : ℚ
  z : ℚ
deriving DecidableEq, Repr

/-- Kinematic state of a Car entity (src/main.py lines 14-28): position,
rotation, speed, max_speed, rotation_speed.  Constructor defaults are
speed 0, max_speed 20, rotation_speed 60, rotation (0,0,0). -/
structure CarState where
  position : Vec3
  rotation : Vec3
  speed : ℚ
  max_speed : ℚ
  rotation_speed : ℚ
deriving DecidableEq, Repr

/-- A Car at position p with the constructor defaults of Car.__init__. -/
def mkCar (p : Vec3) : CarState :=
  { position := p, rotation := ⟨0, 0, 0⟩, speed := 0, max_speed := 20,
    rotation_speed := 60 }

/-- A coin entity: position plus the ursina enabled flag (destroyed coins are
filtered out by save_game via coin.enabled). -/
structure Coin where
  position : Vec3
  enabled : Bool
deriving DecidableEq, Repr

/-- Difficulty setting (src/main.py set_difficulty). -/
inductive Difficulty where
  | easy
  | medium
  | hard
deriving DecidableEq, Repr

/-- game_state field of CarRacingGame: title, playing or paused. -/
inductive GameMode where
  | title
  | playing
  | paused
deriving DecidableEq, Repr

/-- The mutable state of CarRacingGame that the terrain / persistence core
reads and writes: entity collections, player, terrain bounds, seed,
progression counters, auto-save timer, and the abstract RNG state. -/
structure GameState where
  mode : GameMode
  walls : List Vec3
  obstacles : List Vec3
  coin_entities : List Coin
  ai_cars : List CarState
  player : CarState
  min_generated_z : ℚ
  max_generated_z : ℚ
  world_seed : ℕ
  score : ℤ
  level : ℕ
  coins : ℕ
  total_coins : ℕ
  difficulty : Difficulty
  auto_save_timer : ℚ
  rngSeed : ℕ
  rngIdx : ℕ
deriving DecidableEq, Repr

/-- Python random.uniform(a, b) = a + (b - a) * random(), reading draw `idx`
of the stream seeded with `sd`. -/
def pyUniform (rng : ℕ → ℕ → ℚ) (sd idx : ℕ) (a b : ℚ) : ℚ :=
  a + (b - a) * rng sd idx

/-- Python int() applied to an exact value: truncation toward zero. -/
def pyInt (q : ℚ) : ℤ :=
  if 0 ≤ q then ⌊q⌋ else -⌊-q⌋

/-- One iteration of the wall loop of generate_track_segment (lines 387-399):
if no existing wall (left or right) has z within 0.1 of the candidate z, a
left wall at (15, 0.5, z) and a right wall at (-15, 0.5, z) are appended. -/
def wallStep (walls : List Vec3) (z : ℚ) : List Vec3 :=
  if ∀ w ∈ walls, ¬ (|w.z - z| < 1/10) then
    walls ++ [⟨15, 1/2, z⟩, ⟨-15, 1/2, z⟩]
  else walls

/-- The wall while-loop `z = start_z; while z <= end_z: ...; z += 2`,
unrolled over its iteration count: iteration i uses z = start_z + 2*i. -/
def wallLoop : List Vec3 → ℚ → ℕ → List Vec3
  | walls, _, 0 => walls
  | walls, z, n + 1 => wallLoop (wallStep walls z) (z + 2) n

/-- Number of iterations of `z = s; while z <= e: ...; z += 2`:
the loop runs for z = s, s+2, ..., i.e. ⌊(e-s)/2⌋ + 1 times when s ≤ e. -/
def wallIterCount (s e : ℚ) : ℕ :=
  if s ≤ e then (⌊(e - s) / 2⌋).toNat + 1 else 0

/-- num_obstacles = max(5, int((end_z - start_z) / 10))  (line 404). -/
def numObstacles (s e : ℚ) : ℕ :=
  (max 5 (pyInt ((e - s) / 10))).toNat

/-- num_coins = max(10, int((end_z - start_z) / 5))  (line 413). -/
def numCoins (s e : ℚ) : ℕ :=
  (max 10 (pyInt ((e - s) / 5))).toNat

/-- The obstacle and coin placement loops share this shape (lines 405-419):
each entity sits at (uniform(-12,12), 1, uniform(start_z, end_z)), consuming
two RNG draws (x first, then z, per Python tuple evaluation order). -/
def genScatter (rng : ℕ → ℕ → ℚ) (sd : ℕ) : ℕ → ℚ → ℚ → ℕ → List Vec3
  | _, _, _, 0 => []
  | idx, s, e, n + 1 =>
      ⟨pyUniform rng sd idx (-12) 12, 1, pyUniform rng sd (idx + 1) s e⟩ ::
        genScatter rng sd (idx + 2) s e n

/-- generate_track_segment(start_z, end_z) (lines 381-420): walls on a step-2
grid with the duplicate-z skip, then num_obstacles obstacles, then num_coins
coins; every generated coin increments total_coins. -/
def generate_track_segment (rng : ℕ → ℕ → ℚ) (s e : ℚ) (st : GameState) :
    GameState :=
  let walls2 := wallLoop st.walls s (wallIterCount s e)
  let obs := genScatter rng st.rngSeed st.rngIdx s e (numObstacles s e)
  let cs := genScatter rng st.rngSeed (st.rngIdx + 2 * numObstacles s e) s e
    (numCoins s e)
  { st with
    walls := walls2
    obstacles := st.obstacles ++ obs
    coin_entities := st.coin_entities ++
      cs.map (fun p => { position := p, enabled := true })
    total_coins := st.total_coins + numCoins s e
    rngIdx := st.rngIdx + 2 * numObstacles s e + 2 * numCoins s e }

/-- generate_track_segment with a fault injected into the wall loop: the
try/except at lines 383-401 catches any exception raised while creating
walls.  `fault = some m` models an exception after m wall entities of this
call were appended (the walls created before the raise remain in self.walls);
`fault = none` is the non-faulting run.  Obstacle and coin generation sit
outside the try block and run either way. -/
def generate_track_segment_faulty (rng : ℕ → ℕ → ℚ) (fault : Option ℕ)
    (s e : ℚ) (st : GameState) : GameState :=
  let full := wallLoop st.walls s (wallIterCount s e)
  let walls2 := match fault with
    | none => full
    | some m => st.walls ++ (full.drop st.walls.length).take m
  let obs := genScatter rng st.rngSeed st.rngIdx s e (numObstacles s e)
  let cs := genScatter rng st.rngSeed (st.rngIdx + 2 * numObstacles s e) s e
    (numCoins s e)
  { st with
    walls := walls2
    obstacles := st.obstacles ++ obs
    coin_entities := st.coin_entities ++
      cs.map (fun p => { position := p, enabled := true })
    total_coins := st.total_coins + numCoins s e
    rngIdx := st.rngIdx + 2 * numObstacles s e + 2 * numCoins s e }

/-- create_track (lines 365-379): reset the wall/obstacle lists, set the
bounds to -50/50, and generate the initial segment over those bounds.
Note that this function unconditionally resets min_generated_z and
max_generated_z, also when called from load_game. -/
def create_track (rng : ℕ → ℕ → ℚ) (st : GameState) : GameState :=
  let st1 := { st with
    walls := []
    obstacles := []
    min_generated_z := -50
    max_generated_z := 50 }
  generate_track_segment rng st1.min_generated_z st1.max_generated_z st1

/-- ai_speed_factor per difficulty (set_difficulty, lines 294-305). -/
def aiSpeedFactor : Difficulty → ℚ
  | Difficulty.easy => 7/10
  | Difficulty.medium => 9/10
  | Difficulty.hard => 6/5

/-- spawn_ai_cars (lines 426-436): four cars at (uniform(-10,10), 0,
uniform(-20,-40)), max_speed scaled by ai_speed_factor.  Each car's texture
call generate_car_texture(colors[i], world_seed + i) re-seeds the stream with
world_seed + i, so only the first car draws from the current stream position;
later cars draw from index 0 of the stream seeded world_seed + (i-1). -/
def spawn_ai_cars (rng : ℕ → ℕ → ℚ) (factor : ℚ) (st : GameState) :
    GameState :=
  let mk := fun (sd idx : ℕ) =>
    { mkCar ⟨pyUniform rng sd idx (-10) 10, 0,
             pyUniform rng sd (idx + 1) (-20) (-40)⟩ with
      max_speed := 20 * factor }
  let car0 := mk st.rngSeed st.rngIdx
  let car1 := mk st.world_seed 0
  let car2 := mk (st.world_seed + 1) 0
  let car3 := mk (st.world_seed + 2) 0
  { st with
    ai_cars := st.ai_cars ++ [car0, car1, car2, car3]
    rngSeed := st.world_seed + 3
    rngIdx := 0 }

/-- start_game(load_save=False) (lines 314-347) on a fresh CarRacingGame with
the given difficulty: seed the stream with a fresh world seed, regenerate
textures (each re-seeds with world_seed), create the track, spawn the AI
cars, and create the player at the origin; the player texture call re-seeds
the stream with world_seed. -/
def new_game (rng : ℕ → ℕ → ℚ) (seed : ℕ) (d : Difficulty) : GameState :=
  let st0 : GameState :=
    { mode := GameMode.playing, walls := [], obstacles := [],
      coin_entities := [], ai_cars := [], player := mkCar ⟨0, 0, 0⟩,
      min_generated_z := -50, max_generated_z := 50,
      world_seed := seed, score := 0, level := 1, coins := 0,
      total_coins := 0, difficulty := d, auto_save_timer := 0,
      rngSeed := seed, rngIdx := 0 }
  let st1 := create_track rng st0
  let st2 := spawn_ai_cars rng (aiSpeedFactor d) st1
  { st2 with player := mkCar ⟨0, 0, 0⟩, rngSeed := seed, rngIdx := 0 }

/-- The per-AI-car projection stored by save_game (lines 570-575): position,
rotation, speed, max_speed (rotation_speed is not saved). -/
structure AICarRecord where
  position : Vec3
  rotation : Vec3
  speed : ℚ
  max_speed : ℚ
deriving DecidableEq, Repr

/-- The savegame.json document written by save_game (lines 556-588):
world seed, terrain bounds, player kinematics, alive coin positions,
AI car kinematics, and the game_state block. -/
structure SaveRecord where
  world_seed : ℕ
  min_generated_z : ℚ
  max_generated_z : ℚ
  player : CarState
  coins : List Vec3
  ai_cars : List AICarRecord
  score : ℤ
  level : ℕ
  coinsCollected : ℕ
  total_coins : ℕ
  difficulty : Difficulty
deriving DecidableEq, Repr

/-- save_game (lines 556-588): a pure projection of the live state; only
coins with coin.enabled are written. -/
def save_game (st : GameState) : SaveRecord :=
  { world_seed := st.world_seed
    min_generated_z := st.min_generated_z
    max_generated_z := st.max_generated_z
    player := st.player
    coins := (st.coin_entities.filter (fun c => c.enabled)).map
      (fun c => c.position)
    ai_cars := st.ai_cars.map (fun c =>
      { position := c.position, rotation := c.rotation, speed := c.speed,
        max_speed := c.max_speed })
    score := st.score
    level := st.level
    coinsCollected := st.coins
    total_coins := st.total_coins
    difficulty := st.difficulty }

/-- The coin-restoring loop of load_game (lines 634-641): coin_entities and
total_coins were reset, then each saved position appends a coin and
increments total_coins. -/
def load_coins : List Vec3 → GameState → GameState
  | [], st => st
  | p :: rest, st =>
      load_coins rest
        { st with
          coin_entities := st.coin_entities ++ [{ position := p, enabled := true }]
          total_coins := st.total_coins + 1 }

/-- An AI car recreated by load_game (lines 646-655): constructor defaults,
then max_speed, speed and rotation overridden from the record
(rotation_speed keeps the Car default 60). -/
def loadAICar (c : AICarRecord) : CarState :=
  { position := c.position, rotation := c.rotation, speed := c.speed,
    max_speed := c.max_speed, rotation_speed := 60 }

/-- The body of load_game once the file was read and parsed (lines 599-674):
destroy live entities, re-seed with the saved world seed, regenerate
textures (re-seeding again), restore the bounds from the record, call
create_track (which in turn resets the bounds to -50/50 and regenerates only
that interval), rebuild coins from the record (recomputing total_coins),
rebuild AI cars and the player, and restore score/level/coins/difficulty
from the game_state block. -/
def load_game_record (rng : ℕ → ℕ → ℚ) (r : SaveRecord) (st : GameState) :
    GameState :=
  let st1 := { st with
    world_seed := r.world_seed
    rngSeed := r.world_seed
    rngIdx := 0
    min_generated_z := r.min_generated_z
    max_generated_z := r.max_generated_z }
  let st2 := create_track rng st1
  let st3 := load_coins r.coins
    { st2 with coin_entities := [], total_coins := 0 }
  let st4 := { st3 with ai_cars := r.ai_cars.map loadAICar }
  let st5 := { st4 with
    player := r.player
    rngSeed := r.world_seed
    rngIdx := 0 }
  { st5 with
    score := r.score
    level := r.level
    coins := r.coinsCollected
    difficulty := r.difficulty }

/-- The three conditions load_game can meet at its entry (lines 590-597):
no savegame.json, a file that json.load fails to parse, or a parsed record. -/
inductive SaveFile where
  | missing
  | corrupt
  | parsed (r : SaveRecord)

/-- load_game (lines 590-674).  A missing file prints a message and returns
with the state untouched.  A file that fails to parse makes json.load raise,
and load_game has no try/except around it, so the exception propagates to
the caller before any state was mutated; this is modelled as Except.error.
A parsed record runs the load body. -/
def load_game (rng : ℕ → ℕ → ℚ) (f : SaveFile) (st : GameState) :
    Except Unit GameState :=
  match f with
  | SaveFile.missing => Except.ok st
  | SaveFile.corrupt => Except.error ()
  | SaveFile.parsed r => Except.ok (load_game_record rng r st)

/-- The forward-extension branch of generate_more_terrain (lines 754-757):
if player.z > max_generated_z - 50, remember new_min = max_generated_z,
grow max_generated_z by 50 and generate the segment in between. -/
def extendMax (rng : ℕ → ℕ → ℚ) (st : GameState) : GameState :=
  if st.player.position.z > st.max_generated_z - 50 then
    let newMin := st.max_generated_z
    let st1 := { st with max_generated_z := st.max_generated_z + 50 }
    generate_track_segment rng newMin st1.max_generated_z st1
  else st

/-- The backward-extension branch of generate_more_terrain (lines 759-762):
if player.z < min_generated_z + 50, remember new_max = min_generated_z,
shrink min_generated_z by 50 and generate the segment in between. -/
def extendMin (rng : ℕ → ℕ → ℚ) (st : GameState) : GameState :=
  if st.player.position.z < st.min_generated_z + 50 then
    let newMax := st.min_generated_z
    let st1 := { st with min_generated_z := st.min_generated_z - 50 }
    generate_track_segment rng st1.min_generated_z newMax st1
  else st

/-- Shift a position's z by -offset, as the recentering loops do (lines
769-776: entity.z -= offset). -/
def shiftZ (offset : ℚ) (v : Vec3) : Vec3 :=
  { v with z := v.z - offset }

/-- The recentering step of generate_more_terrain (lines 764-776): when
abs(player.z) > 1000, capture offset = player.z, set player.z = 0, and
subtract offset from the z of every wall, obstacle, coin and AI car.
min_generated_z and max_generated_z are left untouched. -/
def recenterStep (st : GameState) : GameState :=
  if 1000 < |st.player.position.z| then
    let offset := st.player.position.z
    { st with
      player := { st.player with
        position := { st.player.position with z := 0 } }
      walls := st.walls.map (shiftZ offset)
      obstacles := st.obstacles.map (shiftZ offset)
      coin_entities := st.coin_entities.map (fun c =>
        { c with position := shiftZ offset c.position })
      ai_cars := st.ai_cars.map (fun c =>
        { c with position := shiftZ offset c.position }) }
  else st

/-- generate_more_terrain (lines 751-776): both extension branches, then the
recentering check, in source order. -/
def generate_more_terrain (rng : ℕ → ℕ → ℚ) (st : GameState) : GameState :=
  recenterStep (extendMin rng (extendMax rng st))

/-- The terrain / auto-save portion of the per-tick update (lines 702-747):
nothing happens unless game_state is playing; terrain generation and
the auto-save timer run only when abs(player.z) > 150; when the timer
reaches 60 the game is saved (returned Bool) and the timer resets.
The collision and HUD handling earlier in update() touches neither the
bounds, the timer, nor the entity lists, and is driven by engine collider
queries left outside this model; player.z here is its value at the point
the abs(player.z) > 150 check runs. -/
def update_tick (rng : ℕ → ℕ → ℚ) (dt : ℚ) (st : GameState) :
    GameState × Bool :=
  if st.mode = GameMode.playing then
    if 150 < |st.player.position.z| then
      let st1 := generate_more_terrain rng st
      let t := st1.auto_save_timer + dt
      if 60 ≤ t then ({ st1 with auto_save_timer := 0 }, true)
      else ({ st1 with auto_save_timer := t }, false)
    else (st, false)
  else (st, false)

/-- Squared Euclidean distance between two positions. -/
def dist2 (a b : Vec3) : ℚ :=
  (a.x - b.x) ^ 2 + (a.y - b.y) ^ 2 + (a.z - b.z) ^ 2

/-- A sequence of generate_track_segment calls folded over a state. -/
def runCalls (rng : ℕ → ℕ → ℚ) : GameState → List (ℚ × ℚ) → GameState
  | st, [] => st
  | st, (s, e) :: rest => runCalls rng (generate_track_segment rng s e st) rest

/-- The wall layout the non-skipping wall loop produces from start z `s`:
n left/right pairs, 2 units apart. -/
def leftRightWalls : ℚ → ℕ → List Vec3
  | _, 0 => []
  | s, n + 1 => ⟨15, 1/2, s⟩ :: ⟨-15, 1/2, s⟩ :: leftRightWalls (s + 2) n

/-- Two walls on the same side (same lateral x) are at least 0.1 apart in z. -/
def sameSideApart (a b : Vec3) : Prop :=
  a.x = b.x → 1/10 ≤ |a.z - b.z|

/-- A fixed RNG stream with every draw 1/2, used for concrete instances. -/
def rngHalf : ℕ → ℕ → ℚ := fun _ _ => 1/2

/-- A playing state with an empty track, the fresh bounds -50/50 and the
player at the origin: the world just before its first generation call. -/
def blankTrack : GameState :=
  { mode := GameMode.playing, walls := [], obstacles := [], coin_entities := [],
    ai_cars := [], player := mkCar ⟨0, 0, 0⟩,
    min_generated_z := -50, max_generated_z := 50,
    world_seed := 42, score := 0, level := 1, coins := 0, total_coins := 0,
    difficulty := Difficulty.medium, auto_save_timer := 0,
    rngSeed := 42, rngIdx := 0 }

/-! Projection facts for generate_track_segment: it rewrites the entity
lists, total_coins and the RNG index, and leaves every other field alone. -/

theorem gts_walls (rng : ℕ → ℕ → ℚ) (s e : ℚ) (st : GameState) :
    (generate_track_segment rng s e st).walls
      = wallLoop st.walls s (wallIterCount s e) := rfl

theorem gts_obstacles (rng : ℕ → ℕ → ℚ) (s e : ℚ) (st : GameState) :
    (generate_track_segment rng s e st).obstacles
      = st.obstacles ++ genScatter rng st.rngSeed st.rngIdx s e
          (numObstacles s e) := rfl

theorem gts_coin_entities (rng : ℕ → ℕ → ℚ) (s e : ℚ) (st : GameState) :
    (generate_track_segment rng s e st).coin_entities
      = st.coin_entities ++
          (genScatter rng st.rngSeed (st.rngIdx + 2 * numObstacles s e) s e
            (numCoins s e)).map (fun p => { position := p, enabled := true }) :=
  rfl

theorem gts_total (rng : ℕ → ℕ → ℚ) (s e : ℚ) (st : GameState) :
    (generate_track_segment rng s e st).total_coins
      = st.total_coins + numCoins s e := rfl

theorem gts_max (rng : ℕ → ℕ → ℚ) (s e : ℚ) (st : GameState) :
    (generate_track_segment rng s e st).max_generated_z
      = st.max_generated_z := rfl

theorem gts_min (rng : ℕ → ℕ → ℚ) (s e : ℚ) (st : GameState) :
    (generate_track_segment rng s e st).min_generated_z
      = st.min_generated_z := rfl

theorem gts_player (rng : ℕ → ℕ → ℚ) (s e : ℚ) (st : GameState) :
    (generate_track_segment rng s e st).player = st.player := rfl

theorem gts_timer (rng : ℕ → ℕ → ℚ) (s e : ℚ) (st : GameState) :
    (generate_track_segment rng s e st).auto_save_timer
      = st.auto_save_timer := rfl

/-! Basic facts about the wall loop. -/

theorem wallStep_append (walls : List Vec3) (z : ℚ) :
    ∃ t, wallStep walls z = walls ++ t := by
  unfold wallStep
  split
  · exact ⟨_, rfl⟩
  · exact ⟨[], (List.append_nil _).symm⟩

theorem wallLoop_append :
    ∀ (n : ℕ) (walls : List Vec3) (z : ℚ), ∃ t, wallLoop walls z n = walls ++ t := by
  intro n
  induction n with
  | zero => exact fun walls z => ⟨[], (List.append_nil _).symm⟩
  | succ n ih =>
    intro walls z
    obtain ⟨t0, h0⟩ := wallStep_append walls z
    obtain ⟨t1, h1⟩ := ih (wallStep walls z) (z + 2)
    refine ⟨t0 ++ t1, ?_⟩
    show wallLoop (wallStep walls z) (z + 2) n = walls ++ (t0 ++ t1)
    rw [h1, h0, List.append_assoc]

theorem wallLoop_mem_mono {walls : List Vec3} {z : ℚ} {n : ℕ} {w : Vec3}
    (hw : w ∈ walls) : w ∈ wallLoop walls z n := by
  obtain ⟨t, ht⟩ := wallLoop_append n walls z
  rw [ht]
  exact List.mem_append_left _ hw

theorem wallStep_z_le {walls : List Vec3} {z c : ℚ}
    (h : ∀ w ∈ walls, w.z ≤ c) (hz : z ≤ c) :
    ∀ w ∈ wallStep walls z, w.z ≤ c := by
  unfold wallStep
  split
  · intro w hw
    rcases List.mem_append.mp hw with h1 | h1
    · exact h w h1
    · rcases List.mem_cons.mp h1 with h2 | h2
      · rw [h2]; exact hz
      · rw [List.mem_singleton.mp h2]; exact hz
  · exact h

theorem wallLoop_z_le :
    ∀ (n : ℕ) (walls : List Vec3) (z c : ℚ),
      (∀ w ∈ walls, w.z ≤ c) → z + 2 * n ≤ c + 2 →
      ∀ w ∈ wallLoop walls z n, w.z ≤ c := by
  intro n
  induction n with
  | zero => intro walls z c h _; exact h
  | succ n ih =>
    intro walls z c h hn
    have hn' : (z + 2) + 2 * n ≤ c + 2 := by push_cast at hn ⊢; linarith
    have hz : z ≤ c := by push_cast at hn; nlinarith [Nat.cast_nonneg (α := ℚ) n]
    exact ih (wallStep walls z) (z + 2) c (wallStep_z_le h hz) hn'

theorem wallStep_mem_new {walls : List Vec3} {z : ℚ}
    (h : ∀ w ∈ walls, ¬ (|w.z - z| < 1/10)) :
    (⟨15, 1/2, z⟩ : Vec3) ∈ wallStep walls z := by
  unfold wallStep
  rw [if_pos h]
  simp

theorem wallStep_pairwise {walls : List Vec3} {z : ℚ}
    (h : walls.Pairwise sameSideApart) :
    (wallStep walls z).Pairwise sameSideApart := by
  unfold wallStep
  split
  case isTrue hc =>
    rw [List.pairwise_append]
    refine ⟨h, ?_, ?_⟩
    · refine List.pairwise_cons.mpr ⟨?_, List.pairwise_singleton _ _⟩
      intro b hb hx
      rcases List.mem_singleton.mp hb with rfl
      exfalso
      exact absurd hx (by norm_num)
    · intro a ha b hb hx
      have h2 : 1/10 ≤ |a.z - z| := not_lt.mp (hc a ha)
      rcases List.mem_cons.mp hb with h3 | h3
      · rw [h3]; exact h2
      · rw [List.mem_singleton.mp h3]; exact h2
  case isFalse => exact h

theorem wallLoop_pairwise :
    ∀ (n : ℕ) (walls : List Vec3) (z : ℚ),
      walls.Pairwise sameSideApart →
      (wallLoop walls z n).Pairwise sameSideApart := by
  intro n
  induction n with
  | zero => exact fun walls z h => h
  | succ n ih =>
    intro walls z h
    exact ih (wallStep walls z) (z + 2) (wallStep_pairwise h)

/-! Branch and preservation facts for the terrain-streaming operations. -/

theorem extendMax_player (rng : ℕ → ℕ → ℚ) (st : GameState) :
    (extendMax rng st).player = st.player := by
  unfold extendMax; split <;> rfl

theorem extendMax_min_eq (rng : ℕ → ℕ → ℚ) (st : GameState) :
    (extendMax rng st).min_generated_z = st.min_generated_z := by
  unfold extendMax; split <;> rfl

theorem extendMax_timer (rng : ℕ → ℕ → ℚ) (st : GameState) :
    (extendMax rng st).auto_save_timer = st.auto_save_timer := by
  unfold extendMax; split <;> rfl

theorem extendMax_pos (rng : ℕ → ℕ → ℚ) {st : GameState}
    (h : st.player.position.z > st.max_generated_z - 50) :
    (extendMax rng st).max_generated_z = st.max_generated_z + 50 := by
  unfold extendMax; rw [if_pos h]; rfl

theorem extendMax_neg (rng : ℕ → ℕ → ℚ) {st : GameState}
    (h : ¬ st.player.position.z > st.max_generated_z - 50) :
    extendMax rng st = st := by
  unfold extendMax; rw [if_neg h]

theorem extendMax_max_mono (rng : ℕ → ℕ → ℚ) (st : GameState) :
    st.max_generated_z ≤ (extendMax rng st).max_generated_z := by
  unfold extendMax
  split
  · rw [gts_max]; show st.max_generated_z ≤ st.max_generated_z + 50; linarith
  · exact le_refl _

theorem extendMax_walls_append (rng : ℕ → ℕ → ℚ) (st : GameState) :
    ∃ t, (extendMax rng st).walls = st.walls ++ t := by
  unfold extendMax
  split
  · rw [gts_walls]; exact wallLoop_append _ _ _
  · exact ⟨[], (List.append_nil _).symm⟩

theorem extendMin_player (rng : ℕ → ℕ → ℚ) (st : GameState) :
    (extendMin rng st).player = st.player := by
  unfold extendMin; split <;> rfl

theorem extendMin_max_eq (rng : ℕ → ℕ → ℚ) (st : GameState) :
    (extendMin rng st).max_generated_z = st.max_generated_z := by
  unfold extendMin; split <;> rfl

theorem extendMin_timer (rng : ℕ → ℕ → ℚ) (st : GameState) :
    (extendMin rng st).auto_save_timer = st.auto_save_timer := by
  unfold extendMin; split <;> rfl

theorem extendMin_pos (rng : ℕ → ℕ → ℚ) {st : GameState}
    (h : st.player.position.z < st.min_generated_z + 50) :
    (extendMin rng st).min_generated_z = st.min_generated_z - 50 := by
  unfold extendMin; rw [if_pos h]; rfl

theorem extendMin_neg (rng : ℕ → ℕ → ℚ) {st : GameState}
    (h : ¬ st.player.position.z < st.min_generated_z + 50) :
    extendMin rng st = st := by
  unfold extendMin; rw [if_neg h]

theorem extendMin_min_mono (rng : ℕ → ℕ → ℚ) (st : GameState) :
    (extendMin rng st).min_generated_z ≤ st.min_generated_z := by
  unfold extendMin
  split
  · rw [gts_min]; show st.min_generated_z - 50 ≤ st.min_generated_z; linarith
  · exact le_refl _

theorem extendMin_walls_append (rng : ℕ → ℕ → ℚ) (st : GameState) :
    ∃ t, (extendMin rng st).walls = st.walls ++ t := by
  unfold extendMin
  split
  · rw [gts_walls]; exact wallLoop_append _ _ _
  · exact ⟨[], (List.append_nil _).symm⟩

theorem recenterStep_max (st : GameState) :
    (recenterStep st).max_generated_z = st.max_generated_z := by
  unfold recenterStep; split <;> rfl

theorem recenterStep_min (st : GameState) :
    (recenterStep st).min_generated_z = st.min_generated_z := by
  unfold recenterStep; split <;> rfl

theorem recenterStep_timer (st : GameState) :
    (recenterStep st).auto_save_timer = st.auto_save_timer := by
  unfold recenterStep; split <;> rfl

theorem recenterStep_neg {st : GameState}
    (h : ¬ 1000 < |st.player.position.z|) :
    recenterStep st = st := by
  unfold recenterStep; rw [if_neg h]

theorem recenterStep_player_z_pos {st : GameState}
    (h : 1000 < |st.player.position.z|) :
    (recenterStep st).player.position.z = 0 := by
  unfold recenterStep; rw [if_pos h]

/-- The state generate_more_terrain passes into its recentering check:
both extension branches applied in source order. -/
def preRecenter (rng : ℕ → ℕ → ℚ) (st : GameState) : GameState :=
  extendMin rng (extendMax rng st)

theorem gmt_eq_recenter_pre (rng : ℕ → ℕ → ℚ) (st : GameState) :
    generate_more_terrain rng st = recenterStep (preRecenter rng st) := rfl

theorem preRecenter_player (rng : ℕ → ℕ → ℚ) (st : GameState) :
    (preRecenter rng st).player = st.player := by
  unfold preRecenter; rw [extendMin_player, extendMax_player]

theorem preRecenter_timer (rng : ℕ → ℕ → ℚ) (st : GameState) :
    (preRecenter rng st).auto_save_timer = st.auto_save_timer := by
  unfold preRecenter; rw [extendMin_timer, extendMax_timer]

theorem gmt_max_eq (rng : ℕ → ℕ → ℚ) (st : GameState) :
    (generate_more_terrain rng st).max_generated_z
      = (extendMax rng st).max_generated_z := by
  rw [gmt_eq_recenter_pre, recenterStep_max]
  unfold preRecenter
  rw [extendMin_max_eq]

theorem gmt_min_eq (rng : ℕ → ℕ → ℚ) (st : GameState) :
    (generate_more_terrain rng st).min_generated_z
      = (extendMin rng (extendMax rng st)).min_generated_z := by
  rw [gmt_eq_recenter_pre, recenterStep_min]
  rfl

theorem gmt_timer_eq (rng : ℕ → ℕ → ℚ) (st : GameState) :
    (generate_more_terrain rng st).auto_save_timer = st.auto_save_timer := by
  rw [gmt_eq_recenter_pre, recenterStep_timer, preRecenter_timer]

theorem gmt_max_mono (rng : ℕ → ℕ → ℚ) (st : GameState) :
    st.max_generated_z ≤ (generate_more_terrain rng st).max_generated_z := by
  rw [gmt_max_eq]; exact extendMax_max_mono rng st

theorem gmt_min_mono (rng : ℕ → ℕ → ℚ) (st : GameState) :
    (generate_more_terrain rng st).min_generated_z ≤ st.min_generated_z := by
  rw [gmt_min_eq]
  calc (extendMin rng (extendMax rng st)).min_generated_z
      ≤ (extendMax rng st).min_generated_z := extendMin_min_mono _ _
    _ = st.min_generated_z := extendMax_min_eq _ _

/-! Facts about the per-tick terrain entry point. -/

theorem update_tick_cold (rng : ℕ → ℕ → ℚ) (dt : ℚ) {st : GameState}
    (h1 : st.mode = GameMode.playing)
    (h2 : ¬ 150 < |st.player.position.z|) :
    update_tick rng dt st = (st, false) := by
  unfold update_tick; rw [if_pos h1, if_neg h2]

theorem update_tick_hot_fields (rng : ℕ → ℕ → ℚ) (dt : ℚ) {st : GameState}
    (h1 : st.mode = GameMode.playing)
    (h2 : 150 < |st.player.position.z|) :
    (update_tick rng dt st).1.max_generated_z
        = (generate_more_terrain rng st).max_generated_z ∧
    (update_tick rng dt st).1.min_generated_z
        = (generate_more_terrain rng st).min_generated_z ∧
    (update_tick rng dt st).1.walls = (generate_more_terrain rng st).walls ∧
    (update_tick rng dt st).1.player = (generate_more_terrain rng st).player := by
  simp only [update_tick, h1, h2, eq_self_iff_true, if_true]
  split <;> exact ⟨rfl, rfl, rfl, rfl⟩

/-! Scatter-placement facts. -/

theorem genScatter_length (rng : ℕ → ℕ → ℚ) (sd : ℕ) :
    ∀ (n idx : ℕ) (s e : ℚ), (genScatter rng sd idx s e n).length = n := by
  intro n
  induction n with
  | zero => intro idx s e; rfl
  | succ n ih =>
    intro idx s e
    show (genScatter rng sd idx s e (n + 1)).length = n + 1
    unfold genScatter
    rw [List.length_cons, ih]

theorem pyUniform_mem {rng : ℕ → ℕ → ℚ} {sd i : ℕ} {a b : ℚ}
    (h0 : 0 ≤ rng sd i) (h1 : rng sd i ≤ 1) (hab : a ≤ b) :
    a ≤ pyUniform rng sd i a b ∧ pyUniform rng sd i a b ≤ b := by
  unfold pyUniform
  constructor
  · nlinarith
  · nlinarith

theorem genScatter_mem {rng : ℕ → ℕ → ℚ} {sd : ℕ}
    (hr : ∀ i, 0 ≤ rng sd i ∧ rng sd i ≤ 1) {s e : ℚ} (hse : s ≤ e) :
    ∀ (n idx : ℕ), ∀ p ∈ genScatter rng sd idx s e n,
      -12 ≤ p.x ∧ p.x ≤ 12 ∧ s ≤ p.z ∧ p.z ≤ e := by
  intro n
  induction n with
  | zero => intro idx p hp; cases hp
  | succ n ih =>
    intro idx p hp
    unfold genScatter at hp
    rcases List.mem_cons.mp hp with h | h
    · have hx := pyUniform_mem (hr idx).1 (hr idx).2
        (show (-12 : ℚ) ≤ 12 by norm_num)
      have hz := pyUniform_mem (hr (idx + 1)).1 (hr (idx + 1)).2 hse
      rw [h]
      exact ⟨hx.1, hx.2, hz.1, hz.2⟩
    · exact ih (idx + 2) p h

/-! Facts about the coin-restoring loop and the load body. -/

theorem load_coins_total :
    ∀ (l : List Vec3) (st : GameState),
      (load_coins l st).total_coins = st.total_coins + l.length := by
  intro l
  induction l with
  | nil => intro st; rw [List.length_nil]; rfl
  | cons p rest ih =>
    intro st
    show (load_coins rest _).total_coins = _
    rw [ih]
    show st.total_coins + 1 + rest.length = st.total_coins + (rest.length + 1)
    ring

theorem load_coins_max :
    ∀ (l : List Vec3) (st : GameState),
      (load_coins l st).max_generated_z = st.max_generated_z := by
  intro l
  induction l with
  | nil => intro st; rfl
  | cons p rest ih => intro st; exact ih _

theorem load_coins_min :
    ∀ (l : List Vec3) (st : GameState),
      (load_coins l st).min_generated_z = st.min_generated_z := by
  intro l
  induction l with
  | nil => intro st; rfl
  | cons p rest ih => intro st; exact ih _

theorem load_coins_walls :
    ∀ (l : List Vec3) (st : GameState),
      (load_coins l st).walls = st.walls := by
  intro l
  induction l with
  | nil => intro st; rfl
  | cons p rest ih => intro st; exact ih _

theorem load_game_record_total (rng : ℕ → ℕ → ℚ) (r : SaveRecord)
    (st : GameState) :
    (load_game_record rng r st).total_coins = r.coins.length := by
  show (load_coins r.coins _).total_coins = r.coins.length
  rw [load_coins_total]
  show 0 + r.coins.length = r.coins.length
  exact Nat.zero_add _

theorem load_game_record_max (rng : ℕ → ℕ → ℚ) (r : SaveRecord)
    (st : GameState) :
    (load_game_record rng r st).max_generated_z = 50 := by
  show (load_coins r.coins _).max_generated_z = 50
  rw [load_coins_max]
  rfl

theorem load_game_record_min (rng : ℕ → ℕ → ℚ) (r : SaveRecord)
    (st : GameState) :
    (load_game_record rng r st).min_generated_z = -50 := by
  show (load_coins r.coins _).min_generated_z = -50
  rw [load_coins_min]
  rfl

theorem load_game_record_walls (rng : ℕ → ℕ → ℚ) (r : SaveRecord)
    (st : GameState) :
    (load_game_record rng r st).walls
      = wallLoop [] (-50) (wallIterCount (-50) 50) := by
  show (load_coins r.coins _).walls = _
  rw [load_coins_walls]
  rfl

theorem update_tick_not_playing (rng : ℕ → ℕ → ℚ) (dt : ℚ) {st : GameState}
    (h : ¬ st.mode = GameMode.playing) :
    update_tick rng dt st = (st, false) := by
  unfold update_tick; rw [if_neg h]

theorem runCalls_pairwise (rng : ℕ → ℕ → ℚ) :
    ∀ (calls : List (ℚ × ℚ)) (st : GameState),
      st.walls.Pairwise sameSideApart →
      (runCalls rng st calls).walls.Pairwise sameSideApart := by
  intro calls
  induction calls with
  | nil => exact fun st h => h
  | cons c rest ih =>
    intro st h
    obtain ⟨s, e⟩ := c
    show (runCalls rng (generate_track_segment rng s e st) rest).walls.Pairwise _
    refine ih _ ?_
    rw [gts_walls]
    exact wallLoop_pairwise _ _ _ h

/-- C7: across any sequence of generate_track_segment calls starting from a
world with no walls, no two walls on the same side (same lateral x, i.e.
left x = 15 or right x = -15) ever have z-coordinates within 0.1 of each
other: the duplicate check at line 389 skips a candidate z whenever any
existing wall is that close in z. -/
theorem no_close_walls_same_side (rng : ℕ → ℕ → ℚ) (calls : List (ℚ × ℚ)) :
    (runCalls rng blankTrack calls).walls.Pairwise sameSideApart :=
  runCalls_pairwise rng calls blankTrack List.Pairwise.nil

theorem no_close_walls_same_side_witness :
    (runCalls rngHalf blankTrack [((0 : ℚ), (50 : ℚ))]).walls.Pairwise
      sameSideApart :=
  no_close_walls_same_side rngHalf [(0, 50)]

/-- C8: whatever point of the wall loop an exception is raised at (the
try/except of lines 383-401 catches it), the obstacle and coin loops of the
same generate_track_segment call still run and produce their full counts,
and total_coins still grows by the full coin count; with no fault the
faulty model coincides with generate_track_segment. -/
theorem wall_fault_isolated_from_scatter (rng : ℕ → ℕ → ℚ)
    (fault : Option ℕ) (s e : ℚ) (st : GameState) :
    (generate_track_segment_faulty rng fault s e st).obstacles.length
        = st.obstacles.length + numObstacles s e ∧
    (generate_track_segment_faulty rng fault s e st).coin_entities.length
        = st.coin_entities.length + numCoins s e ∧
    (generate_track_segment_faulty rng fault s e st).total_coins
        = st.total_coins + numCoins s e ∧
    generate_track_segment_faulty rng none s e st
        = generate_track_segment rng s e st := by
  refine ⟨?_, ?_, rfl, rfl⟩
  · show (st.obstacles ++
        genScatter rng st.rngSeed st.rngIdx s e (numObstacles s e)).length
      = st.obstacles.length + numObstacles s e
    rw [List.length_append, genScatter_length]
  · show (st.coin_entities ++
        (genScatter rng st.rngSeed (st.rngIdx + 2 * numObstacles s e) s e
          (numCoins s e)).map
            (fun p => ({ position := p, enabled := true } : Coin))).length
      = st.coin_entities.length + numCoins s e
    rw [List.length_append, List.length_map, genScatter_length]

/-- C9 (amended): with no save file, load_game returns normally with the
caller's state untouched, after reporting absence; with a file that fails to
parse, the json.load exception propagates out of load_game (the function has
no handler for it, unlike Leaderboard.load), modelled as Except.error; the
caller's state has not been mutated at the point of the raise. -/
theorem load_missing_noop_corrupt_raises (rng : ℕ → ℕ → ℚ) (st : GameState) :
    load_game rng SaveFile.missing st = Except.ok st ∧
    load_game rng SaveFile.corrupt st = Except.error () :=
  ⟨rfl, rfl⟩

/-- C9 counterexample: on an unparseable save file load_game does not return
normally in any state — the parse exception escapes it — refuting the claim
that the load attempt is aborted without the error propagating. -/
theorem load_corrupt_raises :
    load_game rngHalf SaveFile.corrupt blankTrack = Except.error () := rfl

/-- C10: on any playing tick where abs(player.z) <= 150 at the terrain
check, the update leaves the whole state unchanged — no bounds extension, no
recentering, no auto-save timer advance — and writes no save file (the
returned flag is false); by the same branch structure those effects can only
occur when abs(player.z) > 150. -/
theorem quiet_tick_below_150 (rng : ℕ → ℕ → ℚ) (dt : ℚ) (st : GameState)
    (h1 : st.mode = GameMode.playing)
    (h2 : |st.player.position.z| ≤ 150) :
    update_tick rng dt st = (st, false) :=
  update_tick_cold rng dt h1 (not_lt.mpr h2)

theorem quiet_tick_below_150_witness :
    blankTrack.mode = GameMode.playing ∧
    |blankTrack.player.position.z| ≤ 150 ∧
    update_tick rngHalf (1/60) blankTrack = (blankTrack, false) :=
  ⟨rfl, by show |(0 : ℚ)| ≤ 150; rw [abs_zero]; norm_num,
    quiet_tick_below_150 rngHalf (1/60) blankTrack rfl
      (by show |(0 : ℚ)| ≤ 150; rw [abs_zero]; norm_num)⟩

/-- C5 (amended): load_game restores score, level, coins_collected (and
difficulty) verbatim from the record's game_state block, but total_coins is
not read from the record: it is recomputed as the number of alive coins
stored in the save (lines 634-641 reset it to 0 and count the saved coins). -/
theorem load_restores_progression_fields (rng : ℕ → ℕ → ℚ) (r : SaveRecord)
    (st : GameState) :
    (load_game_record rng r st).score = r.score ∧
    (load_game_record rng r st).level = r.level ∧
    (load_game_record rng r st).coins = r.coinsCollected ∧
    (load_game_record rng r st).difficulty = r.difficulty ∧
    (load_game_record rng r st).total_coins = r.coins.length :=
  ⟨rfl, rfl, rfl, rfl, load_game_record_total rng r st⟩

/-- A record whose stored game_state.total_coins (30) differs from the
number of alive coins it carries (1). -/
def recC5 : SaveRecord :=
  { world_seed := 7, min_generated_z := -50, max_generated_z := 50,
    player := mkCar ⟨0, 0, 0⟩, coins := [⟨0, 1, 5⟩], ai_cars := [],
    score := 500, level := 2, coinsCollected := 3, total_coins := 30,
    difficulty := Difficulty.easy }

/-- C5 counterexample: loading recC5 yields total_coins = 1 (the alive coin
count), not the stored game_state value 30. -/
theorem load_total_coins_not_verbatim :
    (load_game_record rngHalf recC5 blankTrack).total_coins
      ≠ recC5.total_coins := by
  rw [load_game_record_total]
  decide

/-- C3 (amended): after any tick, max_generated_z is non-decreasing and
min_generated_z is non-increasing, without exception: recentering leaves
both bounds untouched (lines 764-776 shift entities only), so no tick shifts
the bounds by the recentering offset. -/
theorem bounds_monotone_every_tick (rng : ℕ → ℕ → ℚ) (dt : ℚ)
    (st : GameState) :
    st.max_generated_z ≤ (update_tick rng dt st).1.max_generated_z ∧
    (update_tick rng dt st).1.min_generated_z ≤ st.min_generated_z := by
  by_cases h1 : st.mode = GameMode.playing
  · by_cases h2 : 150 < |st.player.position.z|
    · obtain ⟨hmax, hmin, _, _⟩ := update_tick_hot_fields rng dt h1 h2
      rw [hmax, hmin]
      exact ⟨gmt_max_mono rng st, gmt_min_mono rng st⟩
    · rw [update_tick_cold rng dt h1 h2]
      exact ⟨le_refl _, le_refl _⟩
  · rw [update_tick_not_playing rng dt h1]
    exact ⟨le_refl _, le_refl _⟩

/-- A playing state at player z = 1050 with fresh bounds -50/50: the tick
both extends forward and recenters. -/
def stC3 : GameState := { blankTrack with player := mkCar ⟨0, 0, 1050⟩ }

/-- C3 counterexample: at stC3 the tick is a recentering event (player z is
reset to 0), yet max_generated_z grows by 50 while min_generated_z moves by
0 — the two bounds do not shift by a common offset, and neither moves by the
recentering offset 1050. -/
theorem recentering_tick_bounds_not_shifted :
    1000 < |stC3.player.position.z| ∧
    (update_tick rngHalf (1/60) stC3).1.player.position.z = 0 ∧
    (update_tick rngHalf (1/60) stC3).1.max_generated_z
        - stC3.max_generated_z = 50 ∧
    (update_tick rngHalf (1/60) stC3).1.min_generated_z
        - stC3.min_generated_z = 0 ∧
    (update_tick rngHalf (1/60) stC3).1.max_generated_z
        - stC3.max_generated_z
      ≠ (update_tick rngHalf (1/60) stC3).1.min_generated_z
        - stC3.min_generated_z := by
  have habs : |stC3.player.position.z| = 1050 := by
    show |(1050 : ℚ)| = 1050
    rw [abs_of_pos]
    norm_num
  have h1 : stC3.mode = GameMode.playing := rfl
  have h2 : (150 : ℚ) < |stC3.player.position.z| := by
    rw [habs]; norm_num
  obtain ⟨hmax, hmin, hwalls, hplayer⟩ :=
    update_tick_hot_fields rngHalf (1/60) h1 h2
  have hzp : 1000 < |(preRecenter rngHalf stC3).player.position.z| := by
    rw [preRecenter_player, habs]; norm_num
  have hpz : (generate_more_terrain rngHalf stC3).player.position.z = 0 := by
    rw [gmt_eq_recenter_pre]
    exact recenterStep_player_z_pos hzp
  have hcondMax : stC3.player.position.z > stC3.max_generated_z - 50 := by
    show (1050 : ℚ) > 50 - 50
    norm_num
  have hmax2 : (generate_more_terrain rngHalf stC3).max_generated_z
      = stC3.max_generated_z + 50 := by
    rw [gmt_max_eq]; exact extendMax_pos rngHalf hcondMax
  have hcondMin : ¬ (extendMax rngHalf stC3).player.position.z
      < (extendMax rngHalf stC3).min_generated_z + 50 := by
    rw [extendMax_player, extendMax_min_eq]
    show ¬ (1050 : ℚ) < -50 + 50
    norm_num
  have hmin2 : (generate_more_terrain rngHalf stC3).min_generated_z
      = stC3.min_generated_z := by
    rw [gmt_min_eq, extendMin_neg rngHalf hcondMin, extendMax_min_eq]
  refine ⟨by rw [habs]; norm_num, ?_, ?_, ?_, ?_⟩
  · rw [hplayer]; exact hpz
  · rw [hmax, hmax2]; ring
  · rw [hmin, hmin2]; ring
  · rw [hmax, hmin, hmax2, hmin2]
    have e1 : stC3.max_generated_z + 50 - stC3.max_generated_z = 50 := by ring
    have e2 : stC3.min_generated_z - stC3.min_generated_z = 0 := by ring
    rw [e1, e2]
    norm_num

/-- C2 (amended): the extension rules run only on ticks where
abs(player.z) > 150 (line 736).  On such ticks: if player.z > max - 50 the
segment [max, max + 50] is generated and max grows by 50, otherwise max is
unchanged; if player.z < min + 50 the segment [min - 50, min] is generated
and min shrinks by 50, otherwise min is unchanged; and when no recentering
happens (abs(player.z) <= 1000) the wall list is extended in place. -/
theorem terrain_extension_gated_by_150 (rng : ℕ → ℕ → ℚ) (dt : ℚ)
    (st : GameState) (h1 : st.mode = GameMode.playing)
    (h2 : 150 < |st.player.position.z|) :
    (st.player.position.z > st.max_generated_z - 50 →
      (update_tick rng dt st).1.max_generated_z = st.max_generated_z + 50) ∧
    (¬ st.player.position.z > st.max_generated_z - 50 →
      (update_tick rng dt st).1.max_generated_z = st.max_generated_z) ∧
    (st.player.position.z < st.min_generated_z + 50 →
      (update_tick rng dt st).1.min_generated_z = st.min_generated_z - 50) ∧
    (¬ st.player.position.z < st.min_generated_z + 50 →
      (update_tick rng dt st).1.min_generated_z = st.min_generated_z) ∧
    (|st.player.position.z| ≤ 1000 →
      ∃ t, (update_tick rng dt st).1.walls = st.walls ++ t) := by
  obtain ⟨hmax, hmin, hwalls, _⟩ := update_tick_hot_fields rng dt h1 h2
  refine ⟨?_, ?_, ?_, ?_, ?_⟩
  · intro h
    rw [hmax, gmt_max_eq]
    exact extendMax_pos rng h
  · intro h
    rw [hmax, gmt_max_eq, extendMax_neg rng h]
  · intro h
    have h' : (extendMax rng st).player.position.z
        < (extendMax rng st).min_generated_z + 50 := by
      rw [extendMax_player, extendMax_min_eq]; exact h
    rw [hmin, gmt_min_eq, extendMin_pos rng h', extendMax_min_eq]
  · intro h
    have h' : ¬ (extendMax rng st).player.position.z
        < (extendMax rng st).min_generated_z + 50 := by
      rw [extendMax_player, extendMax_min_eq]; exact h
    rw [hmin, gmt_min_eq, extendMin_neg rng h', extendMax_min_eq]
  · intro h
    have hrc : ¬ 1000 < |(preRecenter rng st).player.position.z| := by
      rw [preRecenter_player]; exact not_lt.mpr h
    rw [hwalls, gmt_eq_recenter_pre, recenterStep_neg hrc]
    obtain ⟨t1, ht1⟩ := extendMax_walls_append rng st
    obtain ⟨t2, ht2⟩ := extendMin_walls_append rng (extendMax rng st)
    refine ⟨t1 ++ t2, ?_⟩
    show (preRecenter rng st).walls = st.walls ++ (t1 ++ t2)
    unfold preRecenter
    rw [ht2, ht1, List.append_assoc]

/-- A playing state with fresh bounds -50/50 and the player at z = 100:
beyond max - 50 = 0 (and indeed beyond max itself), but below the 150 gate. -/
def stC2 : GameState := { blankTrack with player := mkCar ⟨0, 0, 100⟩ }

/-- C2 counterexample: at stC2 the player is past max_generated_z - 50 (and
even past max_generated_z, i.e. in ungenerated space), yet the tick performs
no extension because abs(player.z) <= 150. -/
theorem update_tick_no_extension_at_z100 :
    stC2.player.position.z > stC2.max_generated_z - 50 ∧
    stC2.player.position.z > stC2.max_generated_z ∧
    stC2.mode = GameMode.playing ∧
    (update_tick rngHalf (1/60) stC2).1.max_generated_z
      = stC2.max_generated_z := by
  have habs : |stC2.player.position.z| = 100 := by
    show |(100 : ℚ)| = 100
    rw [abs_of_pos]
    norm_num
  refine ⟨by show (100 : ℚ) > 50 - 50; norm_num,
    by show (100 : ℚ) > 50; norm_num, rfl, ?_⟩
  rw [update_tick_cold rngHalf (1/60) rfl (by rw [habs]; norm_num)]

/-- A playing state with fresh bounds and the player at z = 160, past the
150 gate and past max - 50. -/
def stC2w : GameState := { blankTrack with player := mkCar ⟨0, 0, 160⟩ }

theorem terrain_extension_gated_by_150_witness :
    stC2w.mode = GameMode.playing ∧ 150 < |stC2w.player.position.z| ∧
    (update_tick rngHalf (1/60) stC2w).1.max_generated_z
      = stC2w.max_generated_z + 50 :=
  ⟨rfl, by show (150 : ℚ) < |(160 : ℚ)|; rw [abs_of_pos] <;> norm_num,
    (terrain_extension_gated_by_150 rngHalf (1/60) stC2w rfl
        (by show (150 : ℚ) < |(160 : ℚ)|; rw [abs_of_pos] <;> norm_num)).1
      (by show (160 : ℚ) > 50 - 50; norm_num)⟩

/-- C4: within generate_more_terrain, recentering triggers exactly when
abs(player.z) > 1000 (the extension branches do not move the player, so this
is the player's z of the tick).  It zeroes the player's z, keeps the
player's x and y, subtracts the captured offset from the z of every wall,
obstacle, coin and AI car present after the extension branches, and
preserves every entity's squared distance to the player exactly — hence in
particular to within 1e-6.  When abs(player.z) <= 1000 nothing is shifted. -/
theorem recentering_exact_iff_threshold (rng : ℕ → ℕ → ℚ) (st : GameState) :
    (1000 < |st.player.position.z| →
      ((generate_more_terrain rng st).player.position.z = 0 ∧
       (generate_more_terrain rng st).player.position.x
          = st.player.position.x ∧
       (generate_more_terrain rng st).player.position.y
          = st.player.position.y) ∧
      ((generate_more_terrain rng st).walls
          = (preRecenter rng st).walls.map (shiftZ st.player.position.z) ∧
       (generate_more_terrain rng st).obstacles
          = (preRecenter rng st).obstacles.map (shiftZ st.player.position.z) ∧
       (generate_more_terrain rng st).coin_entities
          = (preRecenter rng st).coin_entities.map (fun c =>
              { c with position := shiftZ st.player.position.z c.position }) ∧
       (generate_more_terrain rng st).ai_cars
          = (preRecenter rng st).ai_cars.map (fun c =>
              { c with position := shiftZ st.player.position.z c.position })) ∧
      ((∀ w ∈ (preRecenter rng st).walls,
          dist2 (shiftZ st.player.position.z w)
              (generate_more_terrain rng st).player.position
            = dist2 w st.player.position) ∧
       (∀ o ∈ (preRecenter rng st).obstacles,
          dist2 (shiftZ st.player.position.z o)
              (generate_more_terrain rng st).player.position
            = dist2 o st.player.position) ∧
       (∀ c ∈ (preRecenter rng st).coin_entities,
          dist2 (shiftZ st.player.position.z c.position)
              (generate_more_terrain rng st).player.position
            = dist2 c.position st.player.position) ∧
       (∀ a ∈ (preRecenter rng st).ai_cars,
          dist2 (shiftZ st.player.position.z a.position)
              (generate_more_terrain rng st).player.position
            = dist2 a.position st.player.position))) ∧
    (|st.player.position.z| ≤ 1000 →
      generate_more_terrain rng st = preRecenter rng st) := by
  have hp : (preRecenter rng st).player = st.player := preRecenter_player rng st
  constructor
  · intro h
    have hc : 1000 < |(preRecenter rng st).player.position.z| := by
      rw [hp]; exact h
    rw [gmt_eq_recenter_pre]
    unfold recenterStep
    rw [if_pos hc, hp]
    refine ⟨⟨rfl, rfl, rfl⟩, ⟨rfl, rfl, rfl, rfl⟩, ?_, ?_, ?_, ?_⟩
    · intro w _
      simp only [dist2, shiftZ]
      ring
    · intro o _
      simp only [dist2, shiftZ]
      ring
    · intro c _
      simp only [dist2, shiftZ]
      ring
    · intro a _
      simp only [dist2, shiftZ]
      ring
  · intro h
    have hc : ¬ 1000 < |(preRecenter rng st).player.position.z| := by
      rw [hp]; exact not_lt.mpr h
    rw [gmt_eq_recenter_pre]
    exact recenterStep_neg hc

/-- A playing state at player z = 1050 whose bounds are already wide enough
that neither extension branch fires: the tick only recenters.  It holds one
wall, one obstacle, one coin and one AI car. -/
def stC4 : GameState :=
  { blankTrack with
    player := mkCar ⟨1, 0, 1050⟩
    max_generated_z := 1150
    walls := [⟨15, 1/2, 30⟩]
    obstacles := [⟨3, 1, 500⟩]
    coin_entities := [⟨⟨0, 1, 700⟩, true⟩]
    ai_cars := [mkCar ⟨2, 0, 900⟩] }

theorem recentering_exact_iff_threshold_witness :
    1000 < |stC4.player.position.z| ∧
    (generate_more_terrain rngHalf stC4).player.position.z = 0 ∧
    (generate_more_terrain rngHalf stC4).player.position.x
      = stC4.player.position.x :=
  have h : 1000 < |stC4.player.position.z| := by
    show (1000 : ℚ) < |(1050 : ℚ)|
    rw [abs_of_pos] <;> norm_num
  ⟨h, (((recentering_exact_iff_threshold rngHalf stC4).1 h).1).1,
    (((recentering_exact_iff_threshold rngHalf stC4).1 h).1).2.1⟩

/-! Concrete generation facts used by the generate(0, 50) scenario. -/

theorem wallLoop_fresh :
    ∀ (n : ℕ) (walls : List Vec3) (z : ℚ),
      (∀ w ∈ walls, w.z + 2 ≤ z) →
      wallLoop walls z n = walls ++ leftRightWalls z n := by
  intro n
  induction n with
  | zero => intro walls z _; exact (List.append_nil _).symm
  | succ n ih =>
    intro walls z h
    have hstep : wallStep walls z = walls ++ [⟨15, 1/2, z⟩, ⟨-15, 1/2, z⟩] := by
      unfold wallStep
      rw [if_pos]
      intro w hw hlt
      have h2 := h w hw
      rw [abs_sub_comm, abs_of_nonneg (by linarith)] at hlt
      linarith
    have hnext : ∀ w ∈ wallStep walls z, w.z + 2 ≤ z + 2 := by
      rw [hstep]
      intro w hw
      rcases List.mem_append.mp hw with h1 | h1
      · have := h w h1; linarith
      · rcases List.mem_cons.mp h1 with h2 | h2
        · rw [h2]
        · rw [List.mem_singleton.mp h2]
    show wallLoop (wallStep walls z) (z + 2) n = _
    rw [ih (wallStep walls z) (z + 2) hnext, hstep, List.append_assoc]
    rfl

theorem leftRightWalls_length :
    ∀ (n : ℕ) (z : ℚ), (leftRightWalls z n).length = 2 * n := by
  intro n
  induction n with
  | zero => intro z; rfl
  | succ n ih =>
    intro z
    show (leftRightWalls z (n + 1)).length = 2 * (n + 1)
    unfold leftRightWalls
    rw [List.length_cons, List.length_cons, ih]
    ring

theorem wallIterCount_0_50 : wallIterCount 0 50 = 26 := by
  norm_num [wallIterCount]
  decide

theorem wallIterCount_m50_50 : wallIterCount (-50) 50 = 51 := by
  norm_num [wallIterCount]
  decide

theorem wallIterCount_50_100 : wallIterCount 50 100 = 26 := by
  norm_num [wallIterCount]
  decide

theorem numObstacles_0_50 : numObstacles 0 50 = 5 := by
  norm_num [numObstacles, pyInt]
  decide

theorem numCoins_0_50 : numCoins 0 50 = 10 := by
  norm_num [numCoins, pyInt]
  decide

theorem gen_0_50_walls (rng : ℕ → ℕ → ℚ) :
    (generate_track_segment rng 0 50 blankTrack).walls
      = leftRightWalls 0 26 := by
  rw [gts_walls, wallIterCount_0_50]
  show wallLoop [] 0 26 = leftRightWalls 0 26
  rw [wallLoop_fresh 26 [] 0 (by intro w hw; cases hw)]
  rfl

/-- C6 (amended): generate_track_segment(0, 50) on a world with no
pre-existing walls produces exactly 26 wall-pairs — z runs over 0, 2, ...,
50 inclusive, 26 values, one left wall at x = 15 and one right wall at
x = -15 each — not 25; exactly max(5, 5) = 5 obstacles and
max(10, 10) = 10 coins; and every obstacle and coin has z in [0, 50] and
x in [-12, 12]. -/
theorem generate_0_50_shape (rng : ℕ → ℕ → ℚ)
    (h : ∀ sd i, 0 ≤ rng sd i ∧ rng sd i ≤ 1) :
    (generate_track_segment rng 0 50 blankTrack).walls
        = leftRightWalls 0 26 ∧
    (generate_track_segment rng 0 50 blankTrack).walls.length = 2 * 26 ∧
    (generate_track_segment rng 0 50 blankTrack).obstacles.length = 5 ∧
    (generate_track_segment rng 0 50 blankTrack).coin_entities.length = 10 ∧
    (∀ o ∈ (generate_track_segment rng 0 50 blankTrack).obstacles,
      -12 ≤ o.x ∧ o.x ≤ 12 ∧ 0 ≤ o.z ∧ o.z ≤ 50) ∧
    (∀ c ∈ (generate_track_segment rng 0 50 blankTrack).coin_entities,
      -12 ≤ c.position.x ∧ c.position.x ≤ 12 ∧
        0 ≤ c.position.z ∧ c.position.z ≤ 50) := by
  have hb0 : blankTrack.obstacles = [] := rfl
  have hc0 : blankTrack.coin_entities = [] := rfl
  refine ⟨gen_0_50_walls rng, ?_, ?_, ?_, ?_, ?_⟩
  · rw [gen_0_50_walls rng, leftRightWalls_length]
  · rw [gts_obstacles, List.length_append, genScatter_length,
      numObstacles_0_50, hb0]
    rfl
  · rw [gts_coin_entities, List.length_append, List.length_map,
      genScatter_length, numCoins_0_50, hc0]
    rfl
  · intro o ho
    rw [gts_obstacles, hb0, List.nil_append] at ho
    exact genScatter_mem (fun i => h blankTrack.rngSeed i) (by norm_num) _ _ o ho
  · intro c hc
    rw [gts_coin_entities, hc0, List.nil_append] at hc
    obtain ⟨p, hp, rfl⟩ := List.mem_map.mp hc
    exact genScatter_mem (fun i => h blankTrack.rngSeed i) (by norm_num) _ _ p hp

/-- C6 counterexample: the call produces 52 wall entities, i.e. 26 pairs,
refuting the claimed exact count of 25 pairs. -/
theorem generate_0_50_has_26_pairs :
    (generate_track_segment rngHalf 0 50 blankTrack).walls.length = 52 ∧
    ¬ (generate_track_segment rngHalf 0 50 blankTrack).walls.length
        = 2 * 25 := by
  rw [gen_0_50_walls rngHalf, leftRightWalls_length]
  constructor
  · rfl
  · decide

theorem generate_0_50_shape_witness :
    (∀ sd i, 0 ≤ rngHalf sd i ∧ rngHalf sd i ≤ 1) ∧
    (generate_track_segment rngHalf 0 50 blankTrack).obstacles.length = 5 ∧
    (generate_track_segment rngHalf 0 50 blankTrack).coin_entities.length
      = 10 :=
  have hr : ∀ sd i, 0 ≤ rngHalf sd i ∧ rngHalf sd i ≤ 1 := fun _ _ => by
    constructor <;> norm_num [rngHalf]
  ⟨hr, (generate_0_50_shape rngHalf hr).2.2.1,
    (generate_0_50_shape rngHalf hr).2.2.2.1⟩

/-! The save/load bounds scenario of C1. -/

theorem extendMax_walls_pos (rng : ℕ → ℕ → ℚ) {st : GameState}
    (h : st.player.position.z > st.max_generated_z - 50) :
    (extendMax rng st).walls
      = wallLoop st.walls st.max_generated_z
          (wallIterCount st.max_generated_z (st.max_generated_z + 50)) := by
  unfold extendMax
  rw [if_pos h, gts_walls]

theorem new_game_max (rng : ℕ → ℕ → ℚ) (seed : ℕ) (d : Difficulty) :
    (new_game rng seed d).max_generated_z = 50 := rfl

theorem new_game_min (rng : ℕ → ℕ → ℚ) (seed : ℕ) (d : Difficulty) :
    (new_game rng seed d).min_generated_z = -50 := rfl

theorem new_game_walls (rng : ℕ → ℕ → ℚ) (seed : ℕ) (d : Difficulty) :
    (new_game rng seed d).walls
      = wallLoop [] (-50) (wallIterCount (-50) 50) := rfl

theorem wallLoop_succ (walls : List Vec3) (z : ℚ) (n : ℕ) :
    wallLoop walls z (n + 1) = wallLoop (wallStep walls z) (z + 2) n := rfl

/-- A live world W: a fresh medium game whose player has driven to z = 160. -/
def stW0 : GameState :=
  { new_game rngHalf 42 Difficulty.medium with player := mkCar ⟨0, 0, 160⟩ }

/-- The world after the tick at z = 160: the forward segment [50, 100] was
generated and max_generated_z is now 100. -/
def stW : GameState := generate_more_terrain rngHalf stW0

theorem stW0_condMax :
    stW0.player.position.z > stW0.max_generated_z - 50 := by
  show (160 : ℚ) > 50 - 50
  norm_num

theorem stW_eq_extendMax : stW = extendMax rngHalf stW0 := by
  have habs : |(160 : ℚ)| = 160 := abs_of_pos (by norm_num)
  have hcondMin : ¬ (extendMax rngHalf stW0).player.position.z
      < (extendMax rngHalf stW0).min_generated_z + 50 := by
    rw [extendMax_player, extendMax_min_eq]
    show ¬ (160 : ℚ) < -50 + 50
    norm_num
  have hpre : preRecenter rngHalf stW0 = extendMax rngHalf stW0 := by
    unfold preRecenter
    rw [extendMin_neg rngHalf hcondMin]
  have hrc : ¬ 1000 < |(extendMax rngHalf stW0).player.position.z| := by
    rw [extendMax_player]
    show ¬ (1000 : ℚ) < |(160 : ℚ)|
    rw [habs]
    norm_num
  show generate_more_terrain rngHalf stW0 = extendMax rngHalf stW0
  rw [gmt_eq_recenter_pre, hpre, recenterStep_neg hrc]

theorem stW_max : stW.max_generated_z = 100 := by
  rw [stW_eq_extendMax, extendMax_pos rngHalf stW0_condMax]
  show (50 : ℚ) + 50 = 100
  norm_num

theorem stW0_walls_le : ∀ w ∈ stW0.walls, w.z ≤ 50 := by
  show ∀ w ∈ (new_game rngHalf 42 Difficulty.medium).walls, w.z ≤ 50
  rw [new_game_walls, wallIterCount_m50_50]
  refine wallLoop_z_le 51 [] (-50) 50 (by intro w hw; cases hw) ?_
  push_cast
  norm_num

/-- C1 (exhibiting the code bug): save the live world stW, whose bounds are
min = -50, max = 100 and whose track reaches z = 100 (it contains the left
wall at z = 52); the record carries max_generated_z = 100, but after
load_game the world's max_generated_z is 50 — create_track reset the
restored bounds — and every regenerated wall has z <= 50, so the saved
interval [50, 100] was not regenerated. -/
theorem load_after_save_resets_track_bounds :
    stW.max_generated_z = 100 ∧
    (save_game stW).max_generated_z = 100 ∧
    (save_game stW).min_generated_z = -50 ∧
    (load_game_record rngHalf (save_game stW) stW).max_generated_z = 50 ∧
    (load_game_record rngHalf (save_game stW) stW).max_generated_z
      ≠ (save_game stW).max_generated_z ∧
    (⟨15, 1/2, 52⟩ : Vec3) ∈ stW.walls ∧
    (∀ w ∈ (load_game_record rngHalf (save_game stW) stW).walls,
      w.z ≤ 50) := by
  have hmin : (save_game stW).min_generated_z = -50 := by
    show stW.min_generated_z = -50
    rw [stW_eq_extendMax, extendMax_min_eq]
    rfl
  refine ⟨stW_max, stW_max, hmin, load_game_record_max _ _ _, ?_, ?_, ?_⟩
  · rw [load_game_record_max]
    show (50 : ℚ) ≠ stW.max_generated_z
    rw [stW_max]
    norm_num
  · rw [stW_eq_extendMax, extendMax_walls_pos rngHalf stW0_condMax]
    have e1 : stW0.max_generated_z = 50 := rfl
    rw [e1, show (50 : ℚ) + 50 = 100 from by norm_num, wallIterCount_50_100,
      show (26 : ℕ) = 25 + 1 from rfl, wallLoop_succ,
      show (25 : ℕ) = 24 + 1 from rfl, wallLoop_succ]
    have hA1le : ∀ w ∈ wallStep stW0.walls 50, w.z ≤ 50 :=
      wallStep_z_le stW0_walls_le (le_refl (50 : ℚ))
    have hck : ∀ w ∈ wallStep stW0.walls 50, ¬ (|w.z - (50 + 2)| < 1/10) := by
      intro w hw hlt
      have hle := hA1le w hw
      rw [abs_sub_comm, abs_of_nonneg (by linarith)] at hlt
      linarith
    rw [show (52 : ℚ) = 50 + 2 from by norm_num]
    exact wallLoop_mem_mono (wallStep_mem_new hck)
  · rw [load_game_record_walls, wallIterCount_m50_50]
    refine wallLoop_z_le 51 [] (-50) 50 (by intro w hw; cases hw) ?_
    push_cast
    norm_num
